import Mathlib

/-!
Shallow embedding of `src/main.py` (IMDB movie-review sentiment demo).

Modelling conventions:
* Python strings are embedded as `List Char`; `str.lower()` is character-wise
  lowering and `str.split()` (no separator) is splitting on whitespace runs,
  dropping empty pieces.
* The vocabulary `word_index` (a Python dict `str -> int` loaded from the IMDB
  dataset) is embedded as an association list with first-match lookup, which
  agrees with dict lookup because dict keys are unique; the reverse index
  built by the comprehension `{value: key for key, value in word_index.items()}`
  is embedded as last-match lookup on the value component, which mirrors the
  overwrite-on-duplicate semantics of the comprehension.
* The pretrained Keras model is an external artifact (`simple_rnn_imdb.h5`),
  so inference is a parameter `model : List Nat -> R`, standing for
  `float(model.predict(x, verbose=0)[0][0])` applied to the single row of the
  batch of size one.  Scores (Python floats) are embedded as elements of a
  linear ordered ring `R` (the UI-level code fixes `R := Rat`; concrete
  witnesses use `R := Int`, whose arithmetic the kernel can evaluate).
* Fallible external calls (`load_model`, `model.predict`) are parameters of
  type `Except String _`; a raised exception is the `.error` case.
-/

/-- A word of the input text, i.e. one whitespace-separated piece. -/
abbrev Word := List Char

/-- The vocabulary mapping words to integer indices (`word_index` in the code). -/
abbrev WordIndex := List (Word × Nat)

/-- Scanner for Python `str.split()`: `cur` is the reversed current word.
Splits on whitespace runs and drops empty pieces. -/
def splitWsAux : Word → List Char → List Word
  | cur, [] => if cur = [] then [] else [cur.reverse]
  | cur, c :: cs =>
    if c.isWhitespace then
      if cur = [] then splitWsAux [] cs else cur.reverse :: splitWsAux [] cs
    else
      splitWsAux (c :: cur) cs

/-- Python `text.split()` with no separator: split on whitespace runs. -/
def splitWs (t : List Char) : List Word := splitWsAux [] t

/-- Python `text.lower()`, character-wise. -/
def pyLower (t : List Char) : List Char := t.map Char.toLower

/-- Python `word_index.get(word)` as an `Option`: first-match association-list
lookup (dict keys are unique, so first match equals dict lookup). -/
def pyget (wi : WordIndex) (w : Word) : Option Nat :=
  (wi.find? (fun p => p.1 == w)).map (fun p => p.2)

/-- The reverse index `{value: key for key, value in word_index.items()}.get(v)`:
last binding for a value wins, as in the dict comprehension. -/
def rget (wi : WordIndex) (v : Nat) : Option Word :=
  (wi.reverse.find? (fun p => p.2 == v)).map (fun p => p.1)

/-- `word_index.get(word, 2) + 3` from `preprocess_text` (main.py line 47):
the integer code of one lowercased word; out-of-vocabulary words get `2 + 3 = 5`. -/
def encode_word (wi : WordIndex) (w : Word) : Nat :=
  (pyget wi w).getD 2 + 3

/-- `MAXLEN_DEFAULT = 500` (main.py line 41). -/
def MAXLEN_DEFAULT : Nat := 500

/-- One row of `keras.preprocessing.sequence.pad_sequences([s], maxlen=maxlen)`:
`padding='pre'`, `truncating='pre'`, pad value `0`.  Sequences longer than
`maxlen` keep their last `maxlen` entries; shorter ones are left-padded with
zeros.  (Keras raises for `maxlen = 0` on a non-empty sequence; the app's
slider keeps `maxlen` in `[100, 1000]`, where this embedding is exact.) -/
def pad_sequences_row (s : List Nat) (maxlen : Nat) : List Nat :=
  if maxlen ≤ s.length then s.drop (s.length - maxlen)
  else List.replicate (maxlen - s.length) 0 ++ s

/-- The single row of `preprocess_text` (main.py lines 43-49): empty text gives
`np.zeros((1, maxlen))`; otherwise lower, split, encode each word, pad. -/
def preprocess_row (text : List Char) (wi : WordIndex) (maxlen : Nat) : List Nat :=
  if text = [] then List.replicate maxlen 0
  else pad_sequences_row ((splitWs (pyLower text)).map (encode_word wi)) maxlen

/-- `preprocess_text` (main.py lines 43-49): a batch of one padded row,
shape `1 × maxlen`. -/
def preprocess_text (text : List Char) (wi : WordIndex) (maxlen : Nat) : List (List Nat) :=
  [preprocess_row text wi maxlen]

/-- `decode_review` (main.py lines 51-53):
`' '.join([reverse_word_index.get(i - 3, '?') for i in encoded_review if i > 3])`. -/
def decode_review (encoded_review : List Nat) (reverse_word_index : Nat → Option Word) :
    List Char :=
  List.intercalate [' ']
    ((encoded_review.filter (fun i => 3 < i)).map
      (fun i => (reverse_word_index (i - 3)).getD ['?']))

/-- The sort key of `sorted(importances, key=lambda x: abs(x[1]), reverse=True)`:
`a` precedes `b` when `|a.2| ≥ |b.2|`.  A stable sort with this relation equals
Python's stable descending sort (`List.insertionSort` below is stable, and a
stable sort for a total preorder is unique). -/
def leAbs {R : Type} [LinearOrderedRing R] (a b : Word × R) : Prop := |b.2| ≤ |a.2|

instance {R : Type} [LinearOrderedRing R] : DecidableRel (@leAbs R _) :=
  fun a b => inferInstanceAs (Decidable (|b.2| ≤ |a.2|))

instance {R : Type} [LinearOrderedRing R] : IsTotal (Word × R) leAbs :=
  ⟨fun a b => le_total (|b.2|) (|a.2|)⟩

instance {R : Type} [LinearOrderedRing R] : IsTrans (Word × R) leAbs :=
  ⟨fun _ _ _ h1 h2 => le_trans h2 h1⟩

/-- `word_importance_leave_one_out` (main.py lines 58-76).  For empty word
lists the Python function returns a bare `[]` instead of a tuple (the caller
never hits that case); this is embedded as `none`.  Otherwise it returns
`(base_pred, importances_sorted)` where the base prediction is on the first
`limit_words` words and each delta removes one word from that truncated list. -/
def word_importance_leave_one_out {R : Type} [LinearOrderedRing R]
    (text : List Char) (wi : WordIndex)
    (model : List Nat → R) (maxlen : Nat) (limit_words : Nat) :
    Option (R × List (Word × R)) :=
  let words0 := splitWs (pyLower text)
  if words0 = [] then none
  else
    let words := words0.take limit_words
    let base_pred := model (preprocess_row (List.intercalate [' '] words) wi maxlen)
    let importances := (List.range words.length).map (fun i =>
      (words.getD i [],
        base_pred -
          model (preprocess_row (List.intercalate [' '] (words.eraseIdx i)) wi maxlen)))
    some (base_pred, importances.insertionSort leAbs)

/-- `load_sentiment_model` (main.py lines 29-36): on failure the handler shows
`st.error(f"Error loading model: {e}")` and then executes `raise`, re-raising
the caught exception.  Result: (UI messages shown, outcome). -/
def load_sentiment_model {α : Type} (loaded : Except String α) :
    List String × Except String α :=
  match loaded with
  | Except.ok m => ([], Except.ok m)
  | Except.error e => (["Error loading model: " ++ e], Except.error e)

/-- The `try/except` around `model.predict` in the Classify handler
(main.py lines 132-136): on failure show `st.error(f'Prediction error: {e}')`
and continue with `pred = 0.0`.  Result: (UI messages shown, prediction). -/
def classify_predict (predicted : Except String Rat) : List String × Rat :=
  match predicted with
  | Except.ok p => ([], p)
  | Except.error e => (["Prediction error: " ++ e], 0)

/-- `'Positive' if pred > threshold else 'Negative'` (main.py line 137). -/
def sentiment_label (pred threshold : Rat) : String :=
  if threshold < pred then "Positive" else "Negative"

/-- Python `round(delta, 4)` on the delta, embedded as rounding to the nearest
multiple of `1/10000` (float round-half-to-even is approximated by
round-half-up; no claim depends on the tie behaviour). -/
def round4 (q : Rat) : Rat := (round (q * 10000) : Int) / 10000

/-- `'↑' if delta > 0 else '↓'` (main.py line 162). -/
def effect_arrow (d : Rat) : String := if 0 < d then "↑" else "↓"

/-- The rows table built from the top-20 importances (main.py lines 159-163). -/
def classify_rows (imps : List (Word × Rat)) : List (Word × Rat × String) :=
  (imps.take 20).map (fun p => (p.1, round4 p.2, effect_arrow p.2))

/-- The JSON report dict of the Classify handler (main.py lines 167-174). -/
structure Report where
  input : List Char
  prediction : Rat
  sentiment : String
  top_token_importances : List (Word × Rat × String)
  maxlen_used : Nat
  threshold : Rat

/-- The Classify button handler (main.py lines 129-175).  Result: (UI messages,
either the downloadable report or the uncaught exception that aborts the run).
When `user_input.split()` is empty the handler shows the `st.info` message and
then evaluates `rows` in the report dict, a variable only assigned on the
non-empty branch, so the run aborts with a `NameError` and no report or
download button is produced. -/
def classify_run (model : List Nat → Rat) (wi : WordIndex) (text : List Char)
    (maxlen : Nat) (threshold : Rat) : List String × Except String Report :=
  let pred := model (preprocess_row text wi maxlen)
  let sent := sentiment_label pred threshold
  if splitWs text = [] then
    (["Enter text to compute token importances."],
      Except.error "NameError: rows is not defined")
  else
    let r := (word_importance_leave_one_out text wi model maxlen 60).getD ((0 : Rat), [])
    ([], Except.ok ⟨text, pred, sent, classify_rows r.2, maxlen, threshold⟩)

/-! ## Helper lemmas -/

lemma pad_sequences_row_length (s : List Nat) (maxlen : Nat) :
    (pad_sequences_row s maxlen).length = maxlen := by
  unfold pad_sequences_row
  split
  · rw [List.length_drop]; omega
  · rw [List.length_append, List.length_replicate]; omega

lemma pad_sequences_row_of_le {s : List Nat} {maxlen : Nat} (h : s.length ≤ maxlen) :
    pad_sequences_row s maxlen = List.replicate (maxlen - s.length) 0 ++ s := by
  unfold pad_sequences_row
  split
  · next hge =>
    have h1 : s.length - maxlen = 0 := by omega
    have h2 : maxlen - s.length = 0 := by omega
    rw [h1, h2, List.drop_zero, List.replicate_zero, List.nil_append]
  · rfl

lemma map_getD_range {α : Type} (l : List α) (d : α) :
    (List.range l.length).map (fun i => l.getD i d) = l := by
  induction l with
  | nil => rfl
  | cons a l ih =>
    rw [List.length_cons, List.range_succ_eq_map, List.map_cons, List.map_map]
    have h : ((fun i => (a :: l).getD i d) ∘ Nat.succ) = fun i => l.getD i d := by
      funext i
      rfl
    rw [h, ih]
    rfl

/-- Inversion of a successful `word_importance_leave_one_out` run: the base
prediction is on the joined first `limit_words` words, and the returned list is
the stable descending-by-absolute-delta sort of the leave-one-out pairs. -/
lemma word_importance_eq_some {R : Type} [LinearOrderedRing R]
    {text : List Char} {wi : WordIndex} {model : List Nat → R} {maxlen limit_words : Nat}
    {bp : R} {imps : List (Word × R)}
    (h : word_importance_leave_one_out text wi model maxlen limit_words = some (bp, imps)) :
    bp = model (preprocess_row
        (List.intercalate [' '] ((splitWs (pyLower text)).take limit_words)) wi maxlen)
    ∧ imps = List.insertionSort leAbs
        ((List.range ((splitWs (pyLower text)).take limit_words).length).map (fun i =>
          (((splitWs (pyLower text)).take limit_words).getD i [],
            bp - model (preprocess_row (List.intercalate [' ']
              (((splitWs (pyLower text)).take limit_words).eraseIdx i)) wi maxlen)))) := by
  simp only [word_importance_leave_one_out] at h
  split at h
  · exact Option.noConfusion h
  · rw [Option.some.injEq, Prod.mk.injEq] at h
    obtain ⟨h1, h2⟩ := h
    subst h1
    exact ⟨rfl, h2.symm⟩

/-! ## Claims -/

/-- Claim C2: for every input text (including the empty one) and every positive
`maxlen` (the UI slider keeps `maxlen` in `[100, 1000]`), `preprocess_text`
returns an integer array of shape `1 × maxlen`: one row, whose length is
exactly `maxlen`, shorter token sequences being left-padded and longer ones
pre-truncated. -/
theorem preprocess_text_shape (text : List Char) (wi : WordIndex) (maxlen : Nat)
    (_hm : 0 < maxlen) :
    (preprocess_text text wi maxlen).length = 1
    ∧ ∀ row ∈ preprocess_text text wi maxlen, row.length = maxlen := by
  refine ⟨rfl, ?_⟩
  intro row hrow
  have hr : row = preprocess_row text wi maxlen := by
    simpa [preprocess_text] using hrow
  subst hr
  unfold preprocess_row
  split
  · exact List.length_replicate _ _
  · exact pad_sequences_row_length _ _

/-- Witness for C2 at a concrete input. -/
theorem preprocess_text_shape_witness :
    0 < 7 ∧ (preprocess_row ['h', 'i'] [] 7).length = 7 :=
  ⟨by decide,
   (preprocess_text_shape ['h', 'i'] [] 7 (by decide)).2 _ (List.mem_singleton_self _)⟩

/-- Claim C6: every token is a lowercased word mapped through the fixed
vocabulary: a word `w` present in `word_index` with value `v` is encoded as
`v + 3`, an out-of-vocabulary word as `2 + 3 = 5`, and `preprocess_text`
applies exactly this encoding to every lowercased word of a non-empty input. -/
theorem encode_token_vocab (wi : WordIndex) (w : Word) :
    (∀ v : Nat, pyget wi w = some v → encode_word wi w = v + 3)
    ∧ (pyget wi w = none → encode_word wi w = 5)
    ∧ ∀ (text : List Char) (maxlen : Nat), text ≠ [] →
        preprocess_row text wi maxlen
          = pad_sequences_row ((splitWs (pyLower text)).map (encode_word wi)) maxlen := by
  refine ⟨?_, ?_, ?_⟩
  · intro v h
    unfold encode_word
    rw [h, Option.getD_some]
  · intro h
    unfold encode_word
    rw [h, Option.getD_none]
  · intro text maxlen ht
    unfold preprocess_row
    rw [if_neg ht]

/-- Witness for C6 at concrete vocabulary entries (in- and out-of-vocabulary). -/
theorem encode_token_vocab_witness :
    pyget [(['a'], 7)] ['a'] = some 7
    ∧ encode_word [(['a'], 7)] ['a'] = 7 + 3
    ∧ pyget [(['a'], 7)] ['b'] = none
    ∧ encode_word [(['a'], 7)] ['b'] = 5
    ∧ (['a'] : List Char) ≠ []
    ∧ preprocess_row ['a'] [(['a'], 7)] 2
        = pad_sequences_row ((splitWs (pyLower ['a'])).map (encode_word [(['a'], 7)])) 2 :=
  ⟨by decide, (encode_token_vocab [(['a'], 7)] ['a']).1 7 (by decide), by decide,
   (encode_token_vocab [(['a'], 7)] ['b']).2.1 (by decide), by decide,
   (encode_token_vocab [(['a'], 7)] ['a']).2.2 ['a'] 2 (by decide)⟩

/-- Claim C7: preprocessing is deterministic and free of shared mutable state:
two runs of `preprocess_text` on equal text, equal `word_index` and equal
`maxlen` produce identical encoded arrays (the embedding of the source is a
pure function of exactly these three inputs). -/
theorem preprocess_text_deterministic (t1 t2 : List Char) (w1 w2 : WordIndex)
    (m1 m2 : Nat) (ht : t1 = t2) (hw : w1 = w2) (hm : m1 = m2) :
    preprocess_text t1 w1 m1 = preprocess_text t2 w2 m2 := by
  subst ht
  subst hw
  subst hm
  rfl

/-- Witness for C7 at a concrete input. -/
theorem preprocess_text_deterministic_witness :
    (['h', 'i'] : List Char) = ['h', 'i']
    ∧ preprocess_text ['h', 'i'] [] 3 = preprocess_text ['h', 'i'] [] 3 :=
  ⟨rfl, preprocess_text_deterministic ['h', 'i'] ['h', 'i'] [] [] 3 3 rfl rfl rfl⟩

/-- Claim C10: the classification decision is a strict comparison against the
threshold: the label is `Positive` exactly when `pred > threshold`; a
prediction equal to the threshold is `Negative`, and in particular the
fallback prediction `0.0` after an inference error is `Negative` at
threshold `0.0`. -/
theorem sentiment_strict_threshold :
    (∀ pred threshold : Rat,
      (sentiment_label pred threshold = "Positive" ↔ threshold < pred))
    ∧ (∀ t : Rat, sentiment_label t t = "Negative")
    ∧ sentiment_label 0 0 = "Negative"
    ∧ ∀ e : String, sentiment_label (classify_predict (Except.error e)).2 0 = "Negative" := by
  have hne : ("Negative" : String) ≠ "Positive" := by decide
  refine ⟨?_, ?_, ?_, ?_⟩
  · intro pred threshold
    unfold sentiment_label
    by_cases h : threshold < pred
    · rw [if_pos h]
      exact ⟨fun _ => h, fun _ => rfl⟩
    · rw [if_neg h]
      exact ⟨fun hh => absurd hh hne, fun hh => absurd hh h⟩
  · intro t
    unfold sentiment_label
    rw [if_neg (lt_irrefl t)]
  · show sentiment_label 0 0 = "Negative"
    unfold sentiment_label
    rw [if_neg (lt_irrefl (0 : Rat))]
  · intro e
    show sentiment_label 0 0 = "Negative"
    unfold sentiment_label
    rw [if_neg (lt_irrefl (0 : Rat))]

/-- Claim C3 (code bug): on an input with zero words the Classify handler
shows the `st.info` message and then crashes with a `NameError` while building
the report, because `rows` is only assigned on the non-empty branch; no JSON
report or download button is produced, for any model, vocabulary, `maxlen` or
threshold. -/
theorem classify_empty_input_no_report (model : List Nat → Rat) (wi : WordIndex)
    (maxlen : Nat) (threshold : Rat) :
    (classify_run model wi [] maxlen threshold).1
        = ["Enter text to compute token importances."]
    ∧ (classify_run model wi [] maxlen threshold).2
        = Except.error "NameError: rows is not defined" :=
  ⟨rfl, rfl⟩

/-- Counterexample to Claim C4 as stated: a model-load failure is displayed
and then re-raised (`raise` on main.py line 35), so the caught exception does
propagate further instead of execution continuing. -/
theorem load_error_reraise_counterexample :
    load_sentiment_model (Except.error "boom" : Except String Unit)
      = (["Error loading model: boom"], Except.error "boom")
    ∧ (load_sentiment_model (Except.error "boom" : Except String Unit)).2
        ≠ Except.ok () :=
  ⟨rfl, fun h => Except.noConfusion h⟩

/-- Claim C4 as amended: both failures are caught and surfaced as inline UI
messages, but only the inference path is display-and-continue (with fallback
prediction `0`); the model-load path displays the message and then re-raises
the caught exception. -/
theorem error_display_paths {α : Type} : ∀ e : String,
    load_sentiment_model (Except.error e : Except String α)
      = (["Error loading model: " ++ e], Except.error e)
    ∧ classify_predict (Except.error e) = (["Prediction error: " ++ e], 0)
    ∧ (∀ q : Rat, classify_predict (Except.ok q) = ([], q))
    ∧ ∀ m : α, load_sentiment_model (Except.ok m) = ([], Except.ok m) :=
  fun _ => ⟨rfl, rfl, fun _ => rfl, fun _ => rfl⟩

/-- Claim C1: every returned pair `(word, delta)` of
`word_importance_leave_one_out` satisfies
`delta = base_pred - predict(preprocess(words with that word removed))`, where
`base_pred` is the prediction on the joined considered word list `words`
(the first `limit_words` lowercased words) and the removal is from `words`. -/
theorem word_importance_delta_spec {R : Type} [LinearOrderedRing R]
    (text : List Char) (wi : WordIndex) (model : List Nat → R)
    (maxlen limit_words : Nat) (bp : R) (imps : List (Word × R)) (p : Word × R)
    (hr : word_importance_leave_one_out text wi model maxlen limit_words = some (bp, imps))
    (hp : p ∈ imps) :
    bp = model (preprocess_row (List.intercalate [' ']
        ((splitWs (pyLower text)).take limit_words)) wi maxlen)
    ∧ ∃ i, i < ((splitWs (pyLower text)).take limit_words).length
      ∧ p.1 = ((splitWs (pyLower text)).take limit_words).getD i []
      ∧ p.2 = bp - model (preprocess_row (List.intercalate [' ']
          (((splitWs (pyLower text)).take limit_words).eraseIdx i)) wi maxlen) := by
  obtain ⟨h1, h2⟩ := word_importance_eq_some hr
  refine ⟨h1, ?_⟩
  rw [h2, List.mem_insertionSort] at hp
  obtain ⟨i, hi, hfi⟩ := List.mem_map.mp hp
  refine ⟨i, List.mem_range.mp hi, ?_, ?_⟩
  · rw [← hfi]
  · rw [← hfi]

/-- Witness for C1 at a concrete input, model and returned pair. -/
theorem word_importance_delta_spec_witness :
    word_importance_leave_one_out ['a', ' ', 'b'] [] (fun _ => (0 : Int)) 4 60
      = some (0, [(['a'], 0), (['b'], 0)])
    ∧ (['a'], (0 : Int)) ∈ [((['a'] : Word), (0 : Int)), (['b'], 0)]
    ∧ ((0 : Int) = (fun _ => (0 : Int)) (preprocess_row (List.intercalate [' ']
          ((splitWs (pyLower ['a', ' ', 'b'])).take 60)) [] 4)
      ∧ ∃ i, i < ((splitWs (pyLower ['a', ' ', 'b'])).take 60).length
        ∧ (['a'], (0 : Int)).1 = ((splitWs (pyLower ['a', ' ', 'b'])).take 60).getD i []
        ∧ (['a'], (0 : Int)).2 = 0 - (fun _ => (0 : Int)) (preprocess_row
            (List.intercalate [' ']
              (((splitWs (pyLower ['a', ' ', 'b'])).take 60).eraseIdx i)) [] 4)) :=
  ⟨by decide, by decide,
   word_importance_delta_spec ['a', ' ', 'b'] [] (fun _ => (0 : Int)) 4 60 0
     [(['a'], 0), (['b'], 0)] (['a'], 0) (by decide) (by decide)⟩

/-- Helper to state concrete importance-list lengths without binders. -/
def importancesLength (r : Option (Int × List (Word × Int))) : Nat :=
  match r with
  | none => 0
  | some p => p.2.length

/-- Counterexample to Claim C5 as stated: an input of 61 words yields only 60
importance entries, not one per token of the input text, because the loop only
considers `words[:limit_words]` with `limit_words = 60`. -/
theorem word_importance_truncation_counterexample :
    (splitWs (pyLower (List.intercalate [' '] (List.replicate 61 ['a'])))).length = 61
    ∧ importancesLength (word_importance_leave_one_out
        (List.intercalate [' '] (List.replicate 61 ['a'])) [] (fun _ => (0 : Int)) 1 60) = 60
    ∧ ¬ importancesLength (word_importance_leave_one_out
        (List.intercalate [' '] (List.replicate 61 ['a'])) [] (fun _ => (0 : Int)) 1 60)
      = (splitWs (pyLower (List.intercalate [' '] (List.replicate 61 ['a'])))).length :=
  ⟨by decide, by decide, by decide⟩

/-- Claim C5 as amended: for a non-empty input of `n` words the importance
list has exactly `min limit_words n` entries (one re-inference and one
`(word, delta)` pair per considered token), which is `n` only when
`n ≤ limit_words` (60 at the call site). -/
theorem word_importance_length {R : Type} [LinearOrderedRing R]
    (text : List Char) (wi : WordIndex) (model : List Nat → R)
    (maxlen limit_words : Nat) (bp : R) (imps : List (Word × R))
    (hr : word_importance_leave_one_out text wi model maxlen limit_words = some (bp, imps)) :
    imps.length = min limit_words (splitWs (pyLower text)).length := by
  obtain ⟨_, h2⟩ := word_importance_eq_some hr
  rw [h2, (List.perm_insertionSort leAbs _).length_eq, List.length_map,
    List.length_range, List.length_take]

/-- Witness for the amended C5 at a concrete input. -/
theorem word_importance_length_witness :
    word_importance_leave_one_out ['a', ' ', 'b', ' ', 'c'] [] (fun _ => (0 : Int)) 3 60
      = some (0, [(['a'], 0), (['b'], 0), (['c'], 0)])
    ∧ ([((['a'] : Word), (0 : Int)), (['b'], 0), (['c'], 0)]).length
        = min 60 (splitWs (pyLower ['a', ' ', 'b', ' ', 'c'])).length :=
  ⟨by decide,
   word_importance_length ['a', ' ', 'b', ' ', 'c'] [] (fun _ => (0 : Int)) 3 60 0
     [(['a'], 0), (['b'], 0), (['c'], 0)] (by decide)⟩

/-- The words of the sorted leave-one-out pairs are a permutation of the
considered word list. -/
lemma insertionSort_map_fst_perm {R : Type} [LinearOrderedRing R] (ws : List Word)
    (g : Nat → R) :
    ((List.insertionSort leAbs
        ((List.range ws.length).map (fun i => (ws.getD i [], g i)))).map Prod.fst).Perm ws := by
  refine ((List.perm_insertionSort (@leAbs R _) _).map Prod.fst).trans ?_
  rw [List.map_map]
  have h3 : (Prod.fst ∘ fun i => (ws.getD i [], g i)) = fun i => ws.getD i [] := rfl
  rw [h3, map_getD_range]

/-- Claim C9: the computation considers only the first 60 words (the words of
the returned pairs are a permutation of `words[:60]`) and the returned list is
sorted by non-increasing absolute delta: consecutive entries satisfy
`|d_j| ≥ |d_(j+1)|`. -/
theorem word_importance_sorted_and_limited {R : Type} [LinearOrderedRing R]
    (text : List Char) (wi : WordIndex) (model : List Nat → R) (maxlen : Nat)
    (bp : R) (imps : List (Word × R))
    (hr : word_importance_leave_one_out text wi model maxlen 60 = some (bp, imps)) :
    (imps.map Prod.fst).Perm ((splitWs (pyLower text)).take 60)
    ∧ imps.Chain' (fun a b => |b.2| ≤ |a.2|) := by
  obtain ⟨_, h2⟩ := word_importance_eq_some hr
  constructor
  · rw [h2]
    exact insertionSort_map_fst_perm _ _
  · rw [h2]
    exact (List.sorted_insertionSort (@leAbs R _) _).chain'

/-- Witness for C9 at a concrete input. -/
theorem word_importance_sorted_and_limited_witness :
    word_importance_leave_one_out ['b', ' ', 'a'] [] (fun _ => (0 : Int)) 3 60
      = some (0, [(['b'], 0), (['a'], 0)])
    ∧ (([((['b'] : Word), (0 : Int)), (['a'], 0)].map Prod.fst).Perm
        ((splitWs (pyLower ['b', ' ', 'a'])).take 60)
      ∧ [((['b'] : Word), (0 : Int)), (['a'], 0)].Chain' (fun a b => |b.2| ≤ |a.2|)) :=
  ⟨by decide,
   word_importance_sorted_and_limited ['b', ' ', 'a'] [] (fun _ => (0 : Int)) 3 0
     [(['b'], 0), (['a'], 0)] (by decide)⟩

/-- In a vocabulary whose values are distinct, two entries with equal values
are equal. -/
lemma eq_of_mem_of_snd_eq {wi : WordIndex} (hnd : (wi.map Prod.snd).Nodup)
    {p q : Word × Nat} (hp : p ∈ wi) (hq : q ∈ wi) (h : p.2 = q.2) : p = q := by
  induction wi with
  | nil => cases hp
  | cons x rest ih =>
    rw [List.map_cons, List.nodup_cons] at hnd
    rcases List.mem_cons.mp hp with hpx | hp2
    · rcases List.mem_cons.mp hq with hqx | hq2
      · rw [hpx, hqx]
      · exfalso
        have hm : q.2 ∈ rest.map Prod.snd := List.mem_map_of_mem Prod.snd hq2
        rw [← h, hpx] at hm
        exact hnd.1 hm
    · rcases List.mem_cons.mp hq with hqx | hq2
      · exfalso
        have hm : p.2 ∈ rest.map Prod.snd := List.mem_map_of_mem Prod.snd hp2
        rw [h, hqx] at hm
        exact hnd.1 hm
      · exact ih hnd.2 hp2 hq2

/-- If the vocabulary values are distinct, the reverse index inverts forward
lookup: `word_index[w] = v` implies `reverse_word_index[v] = w`. -/
lemma rget_eq_some_of_pyget {wi : WordIndex} {w : Word} {v : Nat}
    (hnd : (wi.map Prod.snd).Nodup) (h : pyget wi w = some v) : rget wi v = some w := by
  unfold pyget at h
  rcases hfind : wi.find? (fun p => p.1 == w) with _ | p
  · rw [hfind] at h
    exact Option.noConfusion h
  · rw [hfind] at h
    simp only [Option.map_some'] at h
    rw [Option.some.injEq] at h
    have hpmem : p ∈ wi := List.mem_of_find?_eq_some hfind
    have hpw : p.1 = w := by
      have := List.find?_some hfind
      simpa using this
    unfold rget
    rcases hf2 : wi.reverse.find? (fun q => q.2 == v) with _ | q
    · exfalso
      have hex : ∃ x, x ∈ wi.reverse ∧ (fun q : Word × Nat => q.2 == v) x = true :=
        ⟨p, List.mem_reverse.mpr hpmem, by simp [h]⟩
      have hsome := List.find?_isSome.mpr hex
      rw [hf2] at hsome
      exact Bool.noConfusion hsome
    · have hqmem : q ∈ wi := List.mem_reverse.mp (List.mem_of_find?_eq_some hf2)
      have hqv : q.2 = v := by
        have := List.find?_some hf2
        simpa using this
      have hqp : q = p := eq_of_mem_of_snd_eq hnd hqmem hpmem (by rw [hqv]; exact h.symm)
      rw [hf2, Option.map_some', hqp, hpw]

/-- Claim C8: round-trip of encoding and decoding.  If every lowercased word
of the text is in the vocabulary with a positive index, the vocabulary values
are distinct (both true of the IMDB `word_index`), and the word count is at
most `maxlen`, then decoding the preprocessed row against the reverse index
yields exactly the lowercased words joined by single spaces (padding zeros and
reserved indices `≤ 3` are dropped by `decode_review`). -/
theorem decode_preprocess_roundtrip (wi : WordIndex) (text : List Char) (maxlen : Nat)
    (hnd : (wi.map Prod.snd).Nodup)
    (hv : ∀ w ∈ splitWs (pyLower text), 1 ≤ (pyget wi w).getD 0)
    (hlen : (splitWs (pyLower text)).length ≤ maxlen) :
    decode_review (preprocess_row text wi maxlen) (rget wi)
      = List.intercalate [' '] (splitWs (pyLower text)) := by
  have henc : ∀ w ∈ splitWs (pyLower text), ∃ v, pyget wi w = some v ∧ 1 ≤ v := by
    intro w hw
    have h1 := hv w hw
    rcases hpg : pyget wi w with _ | v
    · rw [hpg] at h1
      exact absurd h1 (by decide)
    · rw [hpg] at h1
      exact ⟨v, rfl, by simpa using h1⟩
  by_cases htext : text = []
  · subst htext
    show decode_review (List.replicate maxlen 0) (rget wi) = _
    unfold decode_review
    have hrep : (List.replicate maxlen 0).filter (fun i => 3 < i) = [] := by
      rw [List.filter_eq_nil_iff]
      intro a ha
      rw [List.eq_of_mem_replicate ha]
      decide
    rw [hrep]
    rfl
  · unfold preprocess_row
    rw [if_neg htext]
    have hlen2 : ((splitWs (pyLower text)).map (encode_word wi)).length ≤ maxlen := by
      rw [List.length_map]
      exact hlen
    rw [pad_sequences_row_of_le hlen2]
    unfold decode_review
    rw [List.filter_append]
    have hrep : (List.replicate (maxlen - ((splitWs (pyLower text)).map
        (encode_word wi)).length) 0).filter (fun i => 3 < i) = [] := by
      rw [List.filter_eq_nil_iff]
      intro a ha
      rw [List.eq_of_mem_replicate ha]
      decide
    have hfil : ((splitWs (pyLower text)).map (encode_word wi)).filter (fun i => 3 < i)
        = (splitWs (pyLower text)).map (encode_word wi) := by
      rw [List.filter_eq_self]
      intro a ha
      rcases List.mem_map.mp ha with ⟨w, hw, hwa⟩
      rcases henc w hw with ⟨v, hpg, hv1⟩
      have : a = v + 3 := by
        rw [← hwa]
        unfold encode_word
        rw [hpg, Option.getD_some]
      rw [this]
      simp only [decide_eq_true_eq]
      omega
    rw [hrep, hfil, List.nil_append, List.map_map]
    have hmap : ∀ w ∈ splitWs (pyLower text),
        ((fun i => (rget wi (i - 3)).getD ['?']) ∘ encode_word wi) w = w := by
      intro w hw
      rcases henc w hw with ⟨v, hpg, hv1⟩
      have h4 : encode_word wi w = v + 3 := by
        unfold encode_word
        rw [hpg, Option.getD_some]
      simp only [Function.comp_apply, h4]
      have h5 : v + 3 - 3 = v := by omega
      rw [h5, rget_eq_some_of_pyget hnd hpg, Option.getD_some]
    rw [List.map_congr_left hmap, List.map_id']

/-- Witness for C8 at a concrete vocabulary and text. -/
theorem decode_preprocess_roundtrip_witness :
    (([(['g', 'o', 'o', 'd'], 1), (['b', 'a', 'd'], 2)].map Prod.snd).Nodup
      ∧ (∀ w ∈ splitWs (pyLower ['G', 'o', 'o', 'd', ' ', 'B', 'A', 'D']),
          1 ≤ (pyget [(['g', 'o', 'o', 'd'], 1), (['b', 'a', 'd'], 2)] w).getD 0)
      ∧ (splitWs (pyLower ['G', 'o', 'o', 'd', ' ', 'B', 'A', 'D'])).length ≤ 5)
    ∧ decode_review
        (preprocess_row ['G', 'o', 'o', 'd', ' ', 'B', 'A', 'D']
          [(['g', 'o', 'o', 'd'], 1), (['b', 'a', 'd'], 2)] 5)
        (rget [(['g', 'o', 'o', 'd'], 1), (['b', 'a', 'd'], 2)])
      = List.intercalate [' '] (splitWs (pyLower ['G', 'o', 'o', 'd', ' ', 'B', 'A', 'D'])) :=
  ⟨⟨by decide, by decide, by decide⟩,
   decode_preprocess_roundtrip [(['g', 'o', 'o', 'd'], 1), (['b', 'a', 'd'], 2)]
     ['G', 'o', 'o', 'd', ' ', 'B', 'A', 'D'] 5 (by decide) (by decide) (by decide)⟩
